import Mathlib

/-!
# Verification of the forum-crawler backend against its specification

A shallow embedding of the core of the repository:

* `src/app/fetchers.py` — feed normalisation (`_entry_to_dict`), source
  dispatch (`fetch_feed`) and the keyword filter (`match_keywords`);
* `src/app/tasks.py` — the dedup/ingest pipeline (`fetch_all_topics`,
  `_should_keep_entry`, `_uid_exists`, `_get_active_topics`);
* `src/app/crud.py` / `src/app/main.py` — topic creation with the
  name-uniqueness conflict, and partial topic update;
* `src/app/models.py` — the persisted entities `Topic`, `Post`, `PushLog`.

Python strings are Lean `String`s; Python `None` is `Option.none`; Python
truthiness of a string (`"" `/`None` falsy) is made explicit in the helper
functions below.  The database session is modelled as an explicit `DB`
value threaded through the pipeline; `session.commit()` publishes the
accumulated value and `session.rollback()` restores the initial one.
-/

namespace ForumCrawler

/-- Python `x or y` where `x` is an optional string and both `None` and the
empty string are falsy (`link = entry.get("link") or entry.get("id") or ""`
in `_entry_to_dict`). -/
def pyOrS : Option String → String → String
  | none, y => y
  | some s, y => if s = "" then y else s

/-- Python truthiness test `not s` for an optional string: true exactly on
`None` and `""`. -/
def pyFalsyS : Option String → Bool
  | none => true
  | some s => s == ""

/-- Python `str.lower()`, modelled as per-character lowering of the
underlying character list (ASCII case folding, as in `Char.toLower`). -/
def lowerStr (s : String) : String := ⟨s.data.map Char.toLower⟩

/-- `chPre p s`: the character list `p` is a prefix of `s`.  Building block
for the Python substring test `p in s`. -/
def chPre : List Char → List Char → Bool
  | [], _ => true
  | _ :: _, [] => false
  | p :: ps, c :: cs => p == c && chPre ps cs

/-- `chSub p s`: the character list `p` occurs contiguously inside `s` —
the Python substring operator `p in s` on strings. -/
def chSub : List Char → List Char → Bool
  | p, [] => chPre p []
  | p, c :: cs => chPre p (c :: cs) || chSub p cs

/-- `src/app/fetchers.py`, `match_keywords(text, keywords)`: empty keyword
list accepts everything; falsy text with keywords present rejects;
otherwise case-insensitive substring containment of any keyword. -/
def match_keywords (text : Option String) (keywords : List String) : Bool :=
  if keywords.isEmpty then true
  else
    match text with
    | none => false
    | some t =>
      if t = "" then false
      else keywords.any (fun k => chSub (lowerStr k).data (lowerStr t).data)

/-- A raw feed entry as seen by `_entry_to_dict`: a loosely-structured
mapping where every field may be absent (`entry.get(...)` returning `None`).
The `content` field keeps only the `value` of each content item, which is
all `_entry_to_dict` reads; the three `*_parsed` timestamps are abstracted
to optional `Nat` epoch values. -/
structure RawEntry where
  id : Option String := none
  guid : Option String := none
  link : Option String := none
  title : Option String := none
  summary : Option String := none
  content : List (Option String) := []
  published_parsed : Option Nat := none
  updated_parsed : Option Nat := none
  created_parsed : Option Nat := none
deriving Repr, DecidableEq

/-- The normalised entry dictionary produced by `_entry_to_dict`:
`{title, link, summary, uid, published_at}`. -/
structure Entry where
  title : String
  link : String
  summary : Option String
  uid : String
  published_at : Nat
deriving Repr, DecidableEq

/-- `src/app/fetchers.py`, `_entry_to_dict(entry, source)`.  `now` stands
for `datetime.now(timezone.utc)` used when no parsed timestamp exists; the
`calendar.timegm` conversion is the identity on the abstract epoch value. -/
def _entry_to_dict (e : RawEntry) (source : String) (now : Nat) : Entry :=
  let link := pyOrS e.link (pyOrS e.id "")
  let uid := pyOrS e.id (pyOrS e.guid (pyOrS (some link)
      (source ++ ":" ++ e.title.getD "")))
  let summary :=
    if pyFalsyS e.summary && !e.content.isEmpty then
      match e.content with
      | v :: _ => v
      | [] => e.summary
    else e.summary
  let pstruct :=
    match e.published_parsed with
    | some v => some v
    | none =>
      match e.updated_parsed with
      | some v => some v
      | none => e.created_parsed
  { title := (pyOrS e.title "")
    link := link
    summary := summary
    uid := uid
    published_at := match pstruct with | some v => v | none => now }

/-! ## The persisted data model (`src/app/models.py`) -/

/-- A `topics` row: unique name, source identifier, feed URL, JSON keyword
list (nullable column), active flag.  Timestamps are not modelled. -/
structure Topic where
  id : Nat
  name : String
  source : String
  feed_url : String
  keywords : Option (List String)
  is_active : Bool
deriving Repr, DecidableEq

/-- A `posts` row: owning topic, title, optional content, link, the
deduplication `uid`, publish timestamp.  `is_pushed` defaults to false and
is never touched by the code under verification, so it is omitted. -/
structure Post where
  id : Nat
  topic_id : Nat
  title : String
  content : Option String
  link : String
  uid : String
  published_at : Nat
deriving Repr, DecidableEq

/-- A `push_logs` row: owning post and status string. -/
structure PushLog where
  id : Nat
  post_id : Nat
  status : String
deriving Repr, DecidableEq

/-- The persisted state reachable through a session: the three tables plus
autoincrement counters for primary keys. -/
structure DB where
  topics : List Topic := []
  posts : List Post := []
  push_logs : List PushLog := []
  next_topic_id : Nat := 1
  next_post_id : Nat := 1
  next_log_id : Nat := 1
deriving Repr, DecidableEq

/-- The stats dictionary returned by `fetch_all_topics`. -/
structure Stats where
  topics_checked : Nat
  posts_created : Nat
  duplicates : Nat
deriving Repr, DecidableEq

/-! ## The ingest pipeline (`src/app/tasks.py`) -/

/-- The generator filter in `_should_keep_entry`'s
`" ".join(part for part in text_parts if part)`: keep only truthy parts. -/
def pyStrVal : Option String → Option String
  | none => none
  | some s => if s = "" then none else some s

/-- Python `" ".join(parts)`. -/
def joinSp : List String → String
  | [] => ""
  | [s] => s
  | s :: rest => s ++ " " ++ joinSp rest

/-- `src/app/tasks.py`, `_should_keep_entry(entry, keywords)`: combine the
truthy parts of title and summary with a space and run the keyword filter;
a falsy keyword container (`None` or `[]`) becomes the empty list. -/
def _should_keep_entry (entry : Entry) (keywords : Option (List String)) : Bool :=
  let combined := joinSp ([some entry.title, entry.summary].filterMap pyStrVal)
  let keyword_list :=
    match keywords with
    | none => []
    | some l => l
  match_keywords (some combined) keyword_list

/-- `_get_active_topics`: all topics with `is_active` set. -/
def _get_active_topics (db : DB) : List Topic :=
  db.topics.filter (fun t => t.is_active)

/-- `_uid_exists`: is some persisted (or session-pending) post carrying
this uid? -/
def _uid_exists (db : DB) (uid : String) : Bool :=
  db.posts.any (fun p => p.uid == uid)

/-- The `models.Post(...)` constructed in the body of `fetch_all_topics`;
`session.flush()` assigns the next primary key. -/
def mkPost (t : Topic) (db : DB) (e : Entry) : Post :=
  { id := db.next_post_id
    topic_id := t.id
    title := e.title
    content := e.summary
    link := e.link
    uid := e.uid
    published_at := e.published_at }

/-- One iteration of the `for entry in entries` loop in
`fetch_all_topics`: duplicate check first, then the keyword filter, then
creation of the `Post` and its pending `PushLog`. -/
def processEntry (t : Topic) : DB × Stats → Entry → DB × Stats
  | (db, st), e =>
    if _uid_exists db e.uid then
      (db, { st with duplicates := st.duplicates + 1 })
    else if !(_should_keep_entry e t.keywords) then
      (db, st)
    else
      let post := mkPost t db e
      let log : PushLog := { id := db.next_log_id, post_id := post.id, status := "pending" }
      ({ db with
          posts := db.posts ++ [post]
          push_logs := db.push_logs ++ [log]
          next_post_id := db.next_post_id + 1
          next_log_id := db.next_log_id + 1 },
       { st with posts_created := st.posts_created + 1 })

/-- The `for topic in topics` loop: fetch the topic's feed (any raised
failure propagates as `Except.error`) and fold the entry loop over the
session state. -/
def runTopics (fetch : Topic → Except String (List Entry)) :
    List Topic → DB × Stats → Except String (DB × Stats)
  | [], acc => .ok acc
  | t :: ts, acc =>
    match fetch t with
    | .error msg => .error msg
    | .ok entries => runTopics fetch ts (entries.foldl (processEntry t) acc)

/-- `src/app/tasks.py`, `fetch_all_topics`: run the ingest over all active
topics inside one unit of work.  On success `session.commit()` publishes
the accumulated state and the stats are returned; on any failure
`session.rollback()` restores the pre-run state and the error re-raises. -/
def fetch_all_topics (fetch : Topic → Except String (List Entry)) (db : DB) :
    DB × Except String Stats :=
  let tps := _get_active_topics db
  match runTopics fetch tps
      (db, { topics_checked := tps.length, posts_created := 0, duplicates := 0 }) with
  | .ok (db2, st) => (db2, .ok st)
  | .error msg => (db, .error msg)

/-! ## Source dispatch (`src/app/fetchers.py`, `fetch_feed`) -/

/-- The three per-source fetch coroutines. -/
inductive SourceKind where
  | v2ex
  | nodeseek
  | linuxDo
deriving Repr, DecidableEq

/-- The error raised for an unrecognized source identifier (the
`UnsupportedSourceError` of the specification's taxonomy; concretely
`ValueError(f"Unsupported source: {source}")`). -/
inductive FetchErr where
  | unsupportedSource (source : String)
deriving Repr, DecidableEq

/-- The `fetchers` dictionary literal in `fetch_feed`. -/
def fetcherTable : List (String × SourceKind) :=
  [("v2ex", .v2ex), ("nodeseek", .nodeseek), ("linux.do", .linuxDo)]

/-- `fetch_feed(source, feed_url)`: look the lower-cased source up in the
dispatch table; a miss raises before any network traffic, a hit invokes
the per-source fetcher, which performs exactly one HTTP GET of the feed
URL.  The first component lists the network requests issued. -/
def fetch_feed (source : String) (feed_url : String) :
    List String × Except FetchErr SourceKind :=
  match fetcherTable.lookup (lowerStr source) with
  | none => ([], .error (.unsupportedSource source))
  | some k => ([feed_url], .ok k)

/-! ## The topic API (`src/app/crud.py`, `src/app/main.py`) -/

/-- The request body of `POST /api/v1/topics` (`schemas.TopicCreate`). -/
structure TopicCreate where
  name : String
  source : String
  feed_url : String
  keywords : List String := []
  is_active : Bool := true
deriving Repr, DecidableEq

/-- Outcome of an API call: a value, or a structured client error with an
HTTP status code and detail string. -/
inductive ApiResult (α : Type) where
  | ok (value : α)
  | clientError (statusCode : Nat) (detail : String)
deriving Repr, DecidableEq

/-- Does a persisted topic with this name exist (the `UNIQUE` constraint
on `topics.name`)? -/
def topicNameExists (db : DB) (name : String) : Bool :=
  db.topics.any (fun t => t.name == name)

/-- The `create_topic` endpoint: `crud.create_topic` adds the row and
commits; a name collision violates the unique constraint, the
`IntegrityError` is caught, the session rolled back, and a 400 client
error returned (`src/app/main.py`). -/
def create_topic (db : DB) (tin : TopicCreate) : DB × ApiResult Topic :=
  if topicNameExists db tin.name then
    (db, .clientError 400 "Topic with the same name already exists.")
  else
    let t : Topic :=
      { id := db.next_topic_id
        name := tin.name
        source := tin.source
        feed_url := tin.feed_url
        keywords := some tin.keywords
        is_active := tin.is_active }
    ({ db with topics := db.topics ++ [t], next_topic_id := db.next_topic_id + 1 },
     .ok t)

/-- `schemas.TopicUpdate` together with Pydantic's record of which fields
were explicitly supplied (`model_fields_set`, consulted by
`model_dump(exclude_unset=True)`).  Each value field carries what the
payload supplied; its `set_*` flag tells whether it was supplied at all. -/
structure TopicUpdate where
  name : Option String := none
  source : Option String := none
  feed_url : Option String := none
  keywords : Option (List String) := none
  is_active : Option Bool := none
  set_name : Bool := false
  set_source : Bool := false
  set_feed_url : Bool := false
  set_keywords : Bool := false
  set_is_active : Bool := false
deriving Repr, DecidableEq

/-- The mutable attribute cells of an ORM `Topic` object.  Every column
value sits in an `Option` because `setattr` stores the dumped payload
value verbatim, which may be `None`. -/
structure TopicAttrs where
  name : Option String
  source : Option String
  feed_url : Option String
  keywords : Option (List String)
  is_active : Option Bool
deriving Repr, DecidableEq

/-- `src/app/crud.py`, `update_topic`: iterate over
`topic_in.model_dump(exclude_unset=True)` and `setattr` each supplied
field onto the topic; unsupplied fields are never written. -/
def update_topic (topic : TopicAttrs) (u : TopicUpdate) : TopicAttrs :=
  { name := if u.set_name then u.name else topic.name
    source := if u.set_source then u.source else topic.source
    feed_url := if u.set_feed_url then u.feed_url else topic.feed_url
    keywords := if u.set_keywords then u.keywords else topic.keywords
    is_active := if u.set_is_active then u.is_active else topic.is_active }

/-! ## Derived notions for the re-run (idempotence) analysis -/

/-- The uids of all persisted posts. -/
def postUids (db : DB) : List String := db.posts.map (fun p => p.uid)

/-- The uids of a list of normalized entries. -/
def feedUids (es : List Entry) : List String := es.map (fun e => e.uid)

/-- The uids of the entries of a feed that pass a topic's keyword filter. -/
def keptUids (t : Topic) (es : List Entry) : List String :=
  feedUids (es.filter (fun e => _should_keep_entry e t.keywords))

/-- Concatenation of the images of a list-valued function. -/
def catMap (f : α → List β) : List α → List β
  | [] => []
  | a :: as => f a ++ catMap f as

/-- All uids delivered by the feeds of a list of topics, in processing
order. -/
def allFeedUids (feed : Topic → List Entry) (tps : List Topic) : List String :=
  catMap (fun t => feedUids (feed t)) tps

/-- All uids that pass their own topic's keyword filter. -/
def allKeptUids (feed : Topic → List Entry) (tps : List Topic) : List String :=
  catMap (fun t => keptUids t (feed t)) tps

/-- All entries delivered by the feeds of a list of topics. -/
def allEntries (feed : Topic → List Entry) (tps : List Topic) : List Entry :=
  catMap feed tps

/-- Count of list elements satisfying a boolean predicate. -/
def cntP (p : α → Bool) : List α → Nat
  | [] => 0
  | a :: as => (if p a then 1 else 0) + cntP p as

/-- The `duplicates` counter of a completed run (0 if the run failed). -/
def dupCountOf : Except String Stats → Nat
  | .ok st => st.duplicates
  | .error _ => 0

/-- The `posts_created` counter of a completed run (0 if the run failed). -/
def createdCountOf : Except String Stats → Nat
  | .ok st => st.posts_created
  | .error _ => 0

/-! ## Concrete fixtures for the closed witness theorems -/

/-- An accept-all topic (empty keyword list) for the C1 counterexample. -/
def topicX : Topic :=
  { id := 7, name := "all", source := "v2ex", feed_url := "http://x",
    keywords := some [], is_active := true }

/-- A post persisted before the first run, with uid `"y"`. -/
def postX : Post :=
  { id := 1, topic_id := 7, title := "seed", content := none, link := "s",
    uid := "y", published_at := 0 }

/-- A database already holding `postX` when the first run starts. -/
def dbX : DB :=
  { topics := [topicX], posts := [postX], push_logs := [],
    next_topic_id := 8, next_post_id := 2, next_log_id := 1 }

/-- First feed entry, uid `"x"`. -/
def entryXA : Entry :=
  { title := "a", link := "la", summary := none, uid := "x", published_at := 1 }

/-- Second feed entry, duplicating uid `"x"` inside the same feed. -/
def entryXB : Entry :=
  { title := "b", link := "lb", summary := none, uid := "x", published_at := 2 }

/-- Third feed entry, colliding with the pre-existing `postX`. -/
def entryXC : Entry :=
  { title := "c", link := "lc", summary := none, uid := "y", published_at := 3 }

/-- The unchanged feed used in both runs of the C1 counterexample. -/
def fetchX : Topic → Except String (List Entry) :=
  fun _ => .ok [entryXA, entryXB, entryXC]

/-- A concrete active topic filtering on the keyword `"python"`. -/
def topicW : Topic :=
  { id := 1, name := "ai", source := "v2ex", feed_url := "http://f",
    keywords := some ["python"], is_active := true }

/-- A concrete persisted post with uid `"x"`. -/
def postW : Post :=
  { id := 1, topic_id := 1, title := "old", content := none, link := "l",
    uid := "x", published_at := 0 }

/-- A concrete database holding `topicW` and `postW`. -/
def dbW : DB :=
  { topics := [topicW], posts := [postW], push_logs := [],
    next_topic_id := 2, next_post_id := 2, next_log_id := 1 }

/-- An entry whose uid collides with `postW` (and matches the keyword). -/
def entryDupW : Entry :=
  { title := "python post", link := "l2", summary := none, uid := "x", published_at := 3 }

/-- A fresh entry matching the keyword. -/
def entryNewW : Entry :=
  { title := "python post", link := "l3", summary := none, uid := "y", published_at := 4 }

/-- A fresh entry that does not match the keyword. -/
def entryMissW : Entry :=
  { title := "rust post", link := "l4", summary := none, uid := "z", published_at := 5 }

/-- A stats value mid-run. -/
def stW : Stats := { topics_checked := 1, posts_created := 0, duplicates := 0 }

/-- A well-behaved unchanged feed (fresh, pairwise-distinct uids) for the
amended C1 witness: one matching entry, one filtered-out entry. -/
def feedW : Topic → List Entry :=
  fun _ => [entryNewW, entryMissW]

/-! ## Basic facts about the string helpers -/

theorem chPre_iff (p s : List Char) : chPre p s = true ↔ ∃ r, s = p ++ r := by
  induction p generalizing s with
  | nil => simp [chPre]
  | cons a ps ih =>
    cases s with
    | nil => simp [chPre]
    | cons c cs =>
      simp only [chPre, Bool.and_eq_true, beq_iff_eq, ih]
      constructor
      · rintro ⟨rfl, r, rfl⟩
        exact ⟨r, rfl⟩
      · rintro ⟨r, hr⟩
        cases hr
        exact ⟨rfl, r, rfl⟩

theorem chSub_iff (p s : List Char) : chSub p s = true ↔ ∃ l r, s = l ++ p ++ r := by
  induction s with
  | nil =>
    simp only [chSub, chPre_iff]
    constructor
    · rintro ⟨r, hr⟩
      exact ⟨[], r, hr⟩
    · rintro ⟨l, r, hr⟩
      have h1 := (List.append_eq_nil.mp hr.symm).1
      have h2 := List.append_eq_nil.mp h1
      exact ⟨[], by simp [h2.2]⟩
  | cons c cs ih =>
    simp only [chSub, Bool.or_eq_true, chPre_iff, ih]
    constructor
    · rintro (⟨r, hr⟩ | ⟨l, r, hr⟩)
      · exact ⟨[], r, by simpa using hr⟩
      · exact ⟨c :: l, r, by simp [hr]⟩
    · rintro ⟨l, r, hr⟩
      cases l with
      | nil => exact Or.inl ⟨r, by simpa using hr⟩
      | cons x xs =>
        simp only [List.cons_append, List.cons.injEq] at hr
        exact Or.inr ⟨xs, r, hr.2⟩

theorem data_append (x y : String) : (x ++ y).data = x.data ++ y.data := by
  cases x; cases y; rfl

theorem append_colon_ne_empty (a b : String) : a ++ ":" ++ b ≠ "" := by
  intro h
  have h2 := congrArg String.data h
  rw [data_append, data_append] at h2
  simp [String.data] at h2

theorem pyOrS_some_ne (s y : String) (h : s ≠ "") : pyOrS (some s) y = s := by
  simp [pyOrS, h]

theorem pyOrS_falsy (x : Option String) (y : String) (h : pyFalsyS x = true) :
    pyOrS x y = y := by
  cases x with
  | none => rfl
  | some s =>
    simp only [pyFalsyS, beq_iff_eq] at h
    simp [pyOrS, h]

theorem pyOrS_some_empty (y : String) : pyOrS (some "") y = y := by
  simp [pyOrS]

theorem pyOrS_ne_empty (x : Option String) (y : String) (h : y ≠ "") :
    pyOrS x y ≠ "" := by
  cases x with
  | none => exact h
  | some s =>
    by_cases hs : s = "" <;> simp [pyOrS, hs, h]

/-! ## Claims about the keyword filter and the normalizer -/

/-- **C2.** `match_keywords` returns true for every text (including `None`)
when the keyword list is empty; returns false when the text is `None` or
empty and the keyword list is non-empty; and otherwise returns true iff at
least one keyword, case-folded, is a contiguous substring of the
case-folded text. -/
theorem C2_match_keywords (text : Option String) (keywords : List String) :
    (keywords = [] → match_keywords text keywords = true) ∧
    (keywords ≠ [] → text = none ∨ text = some "" →
      match_keywords text keywords = false) ∧
    (∀ t, keywords ≠ [] → text = some t → t ≠ "" →
      (match_keywords text keywords = true ↔
        ∃ k ∈ keywords, ∃ l r, (lowerStr t).data = l ++ (lowerStr k).data ++ r)) := by
  refine ⟨?_, ?_, ?_⟩
  · rintro rfl
    simp [match_keywords]
  · rintro hk (rfl | rfl) <;> simp [match_keywords, List.isEmpty_iff, hk]
  · rintro t hk rfl ht
    simp only [match_keywords, List.isEmpty_iff, if_neg hk, if_neg ht,
      List.any_eq_true]
    constructor
    · rintro ⟨k, hkmem, hsub⟩
      exact ⟨k, hkmem, (chSub_iff _ _).1 hsub⟩
    · rintro ⟨k, hkmem, hsub⟩
      exact ⟨k, hkmem, (chSub_iff _ _).2 hsub⟩

/-- Witness for C2 at concrete inputs: an empty keyword list accepts null
text, a non-empty one rejects null text, and `"python"` is found
case-insensitively inside `"Python and FastAPI updates"`. -/
theorem C2_match_keywords_witness :
    match_keywords none [] = true ∧
    match_keywords none ["python"] = false ∧
    (match_keywords (some "Python and FastAPI updates") ["python"] = true ↔
      ∃ k ∈ ["python"], ∃ l r,
        (lowerStr "Python and FastAPI updates").data = l ++ (lowerStr k).data ++ r) :=
  ⟨(C2_match_keywords none []).1 rfl,
   (C2_match_keywords none ["python"]).2.1 (by decide) (Or.inl rfl),
   (C2_match_keywords (some "Python and FastAPI updates") ["python"]).2.2
     "Python and FastAPI updates" (by decide) rfl (by decide)⟩

/-- **C5.** `uid` derivation in `_entry_to_dict`: the entry's native
`id` field when present (truthy), else `guid`, else the link, else the
synthesized `source ++ ":" ++ title`; and in every case the resulting uid
is a non-empty string. -/
theorem C5_uid_derivation (e : RawEntry) (source : String) (now : Nat) :
    (∀ s, e.id = some s → s ≠ "" → (_entry_to_dict e source now).uid = s) ∧
    (pyFalsyS e.id = true →
      ∀ s, e.guid = some s → s ≠ "" → (_entry_to_dict e source now).uid = s) ∧
    (pyFalsyS e.id = true → pyFalsyS e.guid = true →
      ∀ s, e.link = some s → s ≠ "" → (_entry_to_dict e source now).uid = s) ∧
    (pyFalsyS e.id = true → pyFalsyS e.guid = true → pyFalsyS e.link = true →
      (_entry_to_dict e source now).uid = source ++ ":" ++ e.title.getD "") ∧
    (_entry_to_dict e source now).uid ≠ "" := by
  refine ⟨?_, ?_, ?_, ?_, ?_⟩
  · rintro s hid hs
    simp [_entry_to_dict, hid, pyOrS_some_ne s _ hs]
  · rintro hid s hguid hs
    simp [_entry_to_dict, pyOrS_falsy _ _ hid, hguid, pyOrS_some_ne s _ hs]
  · rintro hid hguid s hlink hs
    simp [_entry_to_dict, pyOrS_falsy _ _ hid, pyOrS_falsy _ _ hguid, hlink,
      pyOrS_some_ne s _ hs]
  · rintro hid hguid hlink
    simp [_entry_to_dict, pyOrS_falsy _ _ hid, pyOrS_falsy _ _ hguid,
      pyOrS_falsy _ _ hlink, pyOrS_some_empty]
  · simp only [_entry_to_dict]
    exact pyOrS_ne_empty _ _ (pyOrS_ne_empty _ _ (pyOrS_ne_empty _ _
      (append_colon_ne_empty source _)))

/-- Witness for C5: every branch of the derivation chain at concrete
entries, ending with the synthesized uid of an entry that has no id, guid
or link. -/
theorem C5_uid_derivation_witness :
    (_entry_to_dict { id := some "ID1" } "v2ex" 0).uid = "ID1" ∧
    (_entry_to_dict { guid := some "G1" } "v2ex" 0).uid = "G1" ∧
    (_entry_to_dict { link := some "L1" } "v2ex" 0).uid = "L1" ∧
    (_entry_to_dict { title := some "T" } "v2ex" 0).uid = "v2ex:T" ∧
    (_entry_to_dict {} "v2ex" 0).uid ≠ "" :=
  ⟨(C5_uid_derivation { id := some "ID1" } "v2ex" 0).1 "ID1" rfl (by decide),
   (C5_uid_derivation { guid := some "G1" } "v2ex" 0).2.1 (by decide) "G1" rfl
     (by decide),
   (C5_uid_derivation { link := some "L1" } "v2ex" 0).2.2.1 (by decide)
     (by decide) "L1" rfl (by decide),
   ((C5_uid_derivation { title := some "T" } "v2ex" 0).2.2.2.1 (by decide)
     (by decide) (by decide)).trans (by decide),
   (C5_uid_derivation {} "v2ex" 0).2.2.2.2⟩

/-- **C10.** Every normalized entry has total (non-null) string `title`
and `link` fields: a missing or falsy raw title maps to `""`; a missing or
falsy raw link falls back to the entry's id, else to `""`. -/
theorem C10_title_link_total (e : RawEntry) (source : String) (now : Nat) :
    (pyFalsyS e.title = true → (_entry_to_dict e source now).title = "") ∧
    (∀ s, e.title = some s → s ≠ "" → (_entry_to_dict e source now).title = s) ∧
    (pyFalsyS e.link = true →
      ∀ s, e.id = some s → s ≠ "" → (_entry_to_dict e source now).link = s) ∧
    (pyFalsyS e.link = true → pyFalsyS e.id = true →
      (_entry_to_dict e source now).link = "") ∧
    (∀ s, e.link = some s → s ≠ "" → (_entry_to_dict e source now).link = s) := by
  refine ⟨?_, ?_, ?_, ?_, ?_⟩
  · intro ht
    simp [_entry_to_dict, pyOrS_falsy _ _ ht]
  · rintro s ht hs
    simp [_entry_to_dict, ht, pyOrS_some_ne s _ hs]
  · rintro hl s hid hs
    simp [_entry_to_dict, pyOrS_falsy _ _ hl, hid, pyOrS_some_ne s _ hs]
  · rintro hl hid
    simp [_entry_to_dict, pyOrS_falsy _ _ hl, pyOrS_falsy _ _ hid,
      pyOrS_some_empty]
  · rintro s hl hs
    simp [_entry_to_dict, hl, pyOrS_some_ne s _ hs]

/-- Witness for C10: the title and link fallbacks evaluated at concrete
raw entries. -/
theorem C10_title_link_total_witness :
    (_entry_to_dict { title := some "" } "v2ex" 0).title = "" ∧
    (_entry_to_dict { title := some "Hello" } "v2ex" 0).title = "Hello" ∧
    (_entry_to_dict { id := some "I9" } "v2ex" 0).link = "I9" ∧
    (_entry_to_dict {} "v2ex" 0).link = "" ∧
    (_entry_to_dict { link := some "http://x" } "v2ex" 0).link = "http://x" :=
  ⟨(C10_title_link_total { title := some "" } "v2ex" 0).1 (by decide),
   (C10_title_link_total { title := some "Hello" } "v2ex" 0).2.1 "Hello" rfl
     (by decide),
   (C10_title_link_total { id := some "I9" } "v2ex" 0).2.2.1 (by decide) "I9"
     rfl (by decide),
   (C10_title_link_total {} "v2ex" 0).2.2.2.1 (by decide) (by decide),
   (C10_title_link_total { link := some "http://x" } "v2ex" 0).2.2.2.2
     "http://x" rfl (by decide)⟩

/-! ## Claims about the pipeline's per-entry step -/

/-- **C9.** The retention decision treats a null keyword container exactly
like an empty one: `_should_keep_entry entry none` equals
`_should_keep_entry entry (some [])`, and a topic with null keywords
accepts every entry. -/
theorem C9_null_keywords_accept_all (entry : Entry) :
    _should_keep_entry entry none = _should_keep_entry entry (some []) ∧
    _should_keep_entry entry none = true :=
  ⟨rfl, rfl⟩

/-- **C4.** The duplicate check runs before the keyword test: an entry
with a persisted uid increments the duplicates counter and is skipped
identically for every topic (so the keyword filter cannot influence the
outcome); a non-duplicate that fails the filter changes nothing; a post is
appended exactly when the entry is not a duplicate and passes the filter;
and the duplicates counter moves exactly when the uid already exists. -/
theorem C4_duplicate_before_filter (t : Topic) (db : DB) (st : Stats) (e : Entry) :
    (_uid_exists db e.uid = true → ∀ t2 : Topic,
      processEntry t2 (db, st) e = (db, { st with duplicates := st.duplicates + 1 })) ∧
    (_uid_exists db e.uid = false → _should_keep_entry e t.keywords = false →
      processEntry t (db, st) e = (db, st)) ∧
    ((processEntry t (db, st) e).1.posts = db.posts ++ [mkPost t db e] ↔
      _uid_exists db e.uid = false ∧ _should_keep_entry e t.keywords = true) ∧
    ((processEntry t (db, st) e).2.duplicates = st.duplicates + 1 ↔
      _uid_exists db e.uid = true) := by
  refine ⟨?_, ?_, ?_, ?_⟩
  · intro hdup t2
    simp [processEntry, hdup]
  · intro hdup hkeep
    simp [processEntry, hdup, hkeep]
  · by_cases hdup : _uid_exists db e.uid
    · simp [processEntry, hdup]
    · by_cases hkeep : _should_keep_entry e t.keywords <;>
        simp [processEntry, hdup, hkeep]
  · by_cases hdup : _uid_exists db e.uid
    · simp [processEntry, hdup]
    · by_cases hkeep : _should_keep_entry e t.keywords <;>
        simp [processEntry, hdup, hkeep]

/-- Witness for C4: at `dbW`, the colliding entry is counted as a
duplicate even though it matches the keywords, and the mismatched fresh
entry is dropped without touching the counters. -/
theorem C4_duplicate_before_filter_witness :
    _uid_exists dbW entryDupW.uid = true ∧
    processEntry topicW (dbW, stW) entryDupW =
      (dbW, { stW with duplicates := 1 }) ∧
    _uid_exists dbW entryMissW.uid = false ∧
    _should_keep_entry entryMissW topicW.keywords = false ∧
    processEntry topicW (dbW, stW) entryMissW = (dbW, stW) :=
  ⟨by decide,
   (C4_duplicate_before_filter topicW dbW stW entryDupW).1 (by decide) topicW,
   by decide, by decide,
   (C4_duplicate_before_filter topicW dbW stW entryMissW).2.1 (by decide) (by decide)⟩

/-! ## Claims about error handling -/

/-- If any topic in the list has a failing fetch, the whole topic loop
fails: no exception is caught inside the loop. -/
theorem runTopics_error (fetch : Topic → Except String (List Entry)) :
    ∀ (tps : List Topic) (acc : DB × Stats),
      (∃ t ∈ tps, ∃ msg, fetch t = .error msg) →
      ∃ msg, runTopics fetch tps acc = .error msg := by
  intro tps
  induction tps with
  | nil =>
    rintro acc ⟨t, ht, _⟩
    exact absurd ht (List.not_mem_nil t)
  | cons t ts ih =>
    rintro acc ⟨t', ht', msg, herr⟩
    cases hf : fetch t with
    | error m => exact ⟨m, by simp [runTopics, hf]⟩
    | ok entries =>
      rcases List.mem_cons.mp ht' with rfl | hmem
      · rw [hf] at herr
        simp at herr
      · obtain ⟨m, hm⟩ := ih (entries.foldl (processEntry t) acc) ⟨t', hmem, msg, herr⟩
        exact ⟨m, by simp [runTopics, hf, hm]⟩

/-- **C3.** If the fetch of any active topic fails, the ingest run aborts:
the error propagates to the caller and the persisted state is exactly what
it was before the run (every post and push log added earlier in the run is
rolled back). -/
theorem C3_failure_aborts_run (fetch : Topic → Except String (List Entry)) (db : DB)
    (h : ∃ t ∈ _get_active_topics db, ∃ msg, fetch t = .error msg) :
    (fetch_all_topics fetch db).1 = db ∧
    ∃ msg, (fetch_all_topics fetch db).2 = .error msg := by
  obtain ⟨msg, herr⟩ := runTopics_error fetch (_get_active_topics db)
    (db, { topics_checked := (_get_active_topics db).length, posts_created := 0,
           duplicates := 0 }) h
  exact ⟨by simp [fetch_all_topics, herr], msg, by simp [fetch_all_topics, herr]⟩

/-- Witness for C3: a single active topic whose fetch raises leaves `dbW`
untouched and surfaces the error. -/
theorem C3_failure_aborts_run_witness :
    (∃ t ∈ _get_active_topics dbW, ∃ msg,
      (fun _ : Topic => (Except.error "boom" : Except String (List Entry))) t =
        Except.error msg) ∧
    (fetch_all_topics (fun _ => Except.error "boom") dbW).1 = dbW ∧
    ∃ msg, (fetch_all_topics (fun _ => Except.error "boom") dbW).2 = Except.error msg :=
  ⟨⟨topicW, by decide, "boom", rfl⟩,
   (C3_failure_aborts_run (fun _ => Except.error "boom") dbW
     ⟨topicW, by decide, "boom", rfl⟩).1,
   (C3_failure_aborts_run (fun _ => Except.error "boom") dbW
     ⟨topicW, by decide, "boom", rfl⟩).2⟩

/-- **C6.** `fetch_feed` matches the source case-insensitively against the
fixed dispatch table: an unrecognized source fails with the
unsupported-source error and performs no network request, and each of the
three recognized sources issues exactly one GET of the feed URL through
its own fetcher. -/
theorem C6_source_dispatch (source url : String) :
    (lowerStr source ≠ "v2ex" → lowerStr source ≠ "nodeseek" →
      lowerStr source ≠ "linux.do" →
      fetch_feed source url = ([], .error (.unsupportedSource source))) ∧
    (lowerStr source = "v2ex" → fetch_feed source url = ([url], .ok .v2ex)) ∧
    (lowerStr source = "nodeseek" → fetch_feed source url = ([url], .ok .nodeseek)) ∧
    (lowerStr source = "linux.do" → fetch_feed source url = ([url], .ok .linuxDo)) := by
  refine ⟨?_, ?_, ?_, ?_⟩
  · intro h1 h2 h3
    have e1 := beq_eq_false_iff_ne.mpr h1
    have e2 := beq_eq_false_iff_ne.mpr h2
    have e3 := beq_eq_false_iff_ne.mpr h3
    simp [fetch_feed, fetcherTable, List.lookup, e1, e2, e3]
  · intro h1
    simp [fetch_feed, fetcherTable, List.lookup, h1]
  · intro h1
    simp [fetch_feed, fetcherTable, List.lookup, h1]
  · intro h1
    simp [fetch_feed, fetcherTable, List.lookup, h1]

/-- Witness for C6: `"reddit"` is rejected with no request issued, while
`"V2EX"` dispatches one GET to the v2ex fetcher. -/
theorem C6_source_dispatch_witness :
    lowerStr "reddit" ≠ "v2ex" ∧ lowerStr "reddit" ≠ "nodeseek" ∧
    lowerStr "reddit" ≠ "linux.do" ∧
    fetch_feed "reddit" "http://r" = ([], .error (.unsupportedSource "reddit")) ∧
    lowerStr "V2EX" = "v2ex" ∧
    fetch_feed "V2EX" "http://v" = (["http://v"], .ok .v2ex) :=
  ⟨by decide, by decide, by decide,
   (C6_source_dispatch "reddit" "http://r").1 (by decide) (by decide) (by decide),
   by decide,
   (C6_source_dispatch "V2EX" "http://v").2.1 (by decide)⟩

/-! ## Claims about the topic API -/

/-- **C7.** Creating a topic whose name already exists yields the 400
conflict response (a client error, never a server fault) and leaves the
whole persisted state — in particular the existing topic — unchanged. -/
theorem C7_duplicate_name_conflict (db : DB) (tin : TopicCreate)
    (h : topicNameExists db tin.name = true) :
    create_topic db tin =
      (db, .clientError 400 "Topic with the same name already exists.") := by
  simp [create_topic, h]

/-- Witness for C7: re-creating the name `"ai"` over `dbW` conflicts and
leaves `dbW` as it was. -/
theorem C7_duplicate_name_conflict_witness :
    topicNameExists dbW "ai" = true ∧
    create_topic dbW { name := "ai", source := "nodeseek", feed_url := "http://g" } =
      (dbW, .clientError 400 "Topic with the same name already exists.") :=
  ⟨by decide,
   C7_duplicate_name_conflict dbW
     { name := "ai", source := "nodeseek", feed_url := "http://g" } (by decide)⟩

/-- **C8.** Partial update frame property: each field explicitly supplied
in the payload is overwritten with the supplied value, and each field not
supplied keeps its previous value. -/
theorem C8_partial_update (topic : TopicAttrs) (u : TopicUpdate) :
    (u.set_name = false → (update_topic topic u).name = topic.name) ∧
    (u.set_name = true → (update_topic topic u).name = u.name) ∧
    (u.set_source = false → (update_topic topic u).source = topic.source) ∧
    (u.set_source = true → (update_topic topic u).source = u.source) ∧
    (u.set_feed_url = false → (update_topic topic u).feed_url = topic.feed_url) ∧
    (u.set_feed_url = true → (update_topic topic u).feed_url = u.feed_url) ∧
    (u.set_keywords = false → (update_topic topic u).keywords = topic.keywords) ∧
    (u.set_keywords = true → (update_topic topic u).keywords = u.keywords) ∧
    (u.set_is_active = false → (update_topic topic u).is_active = topic.is_active) ∧
    (u.set_is_active = true → (update_topic topic u).is_active = u.is_active) := by
  refine ⟨?_, ?_, ?_, ?_, ?_, ?_, ?_, ?_, ?_, ?_⟩ <;>
    intro h <;> simp [update_topic, h]

/-- Witness for C8: a payload supplying only the name rewrites the name
and leaves the other four fields untouched. -/
theorem C8_partial_update_witness :
    (update_topic
        { name := some "n", source := some "v2ex", feed_url := some "u",
          keywords := some ["k"], is_active := some true }
        { name := some "n2", set_name := true }).name = some "n2" ∧
    (update_topic
        { name := some "n", source := some "v2ex", feed_url := some "u",
          keywords := some ["k"], is_active := some true }
        { name := some "n2", set_name := true }).source = some "v2ex" ∧
    (update_topic
        { name := some "n", source := some "v2ex", feed_url := some "u",
          keywords := some ["k"], is_active := some true }
        { name := some "n2", set_name := true }).keywords = some ["k"] :=
  ⟨(C8_partial_update
      { name := some "n", source := some "v2ex", feed_url := some "u",
        keywords := some ["k"], is_active := some true }
      { name := some "n2", set_name := true }).2.1 rfl,
   (C8_partial_update
      { name := some "n", source := some "v2ex", feed_url := some "u",
        keywords := some ["k"], is_active := some true }
      { name := some "n2", set_name := true }).2.2.1 rfl,
   (C8_partial_update
      { name := some "n", source := some "v2ex", feed_url := some "u",
        keywords := some ["k"], is_active := some true }
      { name := some "n2", set_name := true }).2.2.2.2.2.2.1 rfl⟩

/-! ## Re-running the pipeline: supporting lemmas -/

theorem uid_exists_iff (db : DB) (u : String) :
    _uid_exists db u = true ↔ u ∈ postUids db := by
  constructor
  · intro h
    obtain ⟨p, hp, hb⟩ := List.any_eq_true.mp h
    exact List.mem_map.mpr ⟨p, hp, eq_of_beq hb⟩
  · intro h
    obtain ⟨p, hp, hpu⟩ := List.mem_map.mp h
    exact List.any_eq_true.mpr ⟨p, hp, by simp [hpu]⟩

theorem step_dup (t : Topic) (db : DB) (st : Stats) (e : Entry)
    (hdup : _uid_exists db e.uid = true) :
    processEntry t (db, st) e = (db, { st with duplicates := st.duplicates + 1 }) := by
  simp [processEntry, hdup]

theorem step_skip (t : Topic) (db : DB) (st : Stats) (e : Entry)
    (hne : _uid_exists db e.uid = false)
    (hkeep : _should_keep_entry e t.keywords = false) :
    processEntry t (db, st) e = (db, st) := by
  simp [processEntry, hne, hkeep]

theorem step_keep (t : Topic) (db : DB) (st : Stats) (e : Entry)
    (hne : _uid_exists db e.uid = false)
    (hkeep : _should_keep_entry e t.keywords = true) :
    processEntry t (db, st) e =
      ({ db with
          posts := db.posts ++ [mkPost t db e],
          push_logs := db.push_logs ++
            [{ id := db.next_log_id, post_id := db.next_post_id, status := "pending" }],
          next_post_id := db.next_post_id + 1,
          next_log_id := db.next_log_id + 1 },
       { st with posts_created := st.posts_created + 1 }) := by
  simp [processEntry, hne, hkeep, mkPost]

theorem mem_catMap {f : α → List β} {b : β} :
    ∀ {l : List α}, b ∈ catMap f l ↔ ∃ a ∈ l, b ∈ f a := by
  intro l
  induction l with
  | nil => simp [catMap]
  | cons x xs ih => simp [catMap, List.mem_append, ih]

theorem keptUids_sub {t : Topic} {es : List Entry} {u : String}
    (h : u ∈ keptUids t es) : u ∈ feedUids es := by
  simp only [keptUids, feedUids, List.mem_map, List.mem_filter] at h ⊢
  obtain ⟨e, ⟨he, _⟩, heq⟩ := h
  exact ⟨e, he, heq⟩

theorem keptUids_length (t : Topic) (es : List Entry) :
    (keptUids t es).length = cntP (fun e => _should_keep_entry e t.keywords) es := by
  induction es with
  | nil => rfl
  | cons e rest ih =>
    by_cases h : _should_keep_entry e t.keywords <;>
      simp [keptUids, feedUids, List.filter_cons, h, cntP,
        ← ih, keptUids, feedUids] <;> omega

theorem cntP_append (p : α → Bool) (l1 l2 : List α) :
    cntP p (l1 ++ l2) = cntP p l1 + cntP p l2 := by
  induction l1 with
  | nil => simp [cntP]
  | cons a as ih => simp [cntP, ih, Nat.add_assoc]

theorem cntP_congr {p q : α → Bool} :
    ∀ {l : List α}, (∀ a ∈ l, p a = q a) → cntP p l = cntP q l := by
  intro l
  induction l with
  | nil => intro _; rfl
  | cons a as ih =>
    intro h
    simp only [cntP, h a (List.mem_cons_self a as),
      ih (fun x hx => h x (List.mem_cons_of_mem a hx))]

theorem catMap_nodup_part {g : α → List β} :
    ∀ {l : List α}, (catMap g l).Nodup → ∀ a ∈ l, (g a).Nodup := by
  intro l
  induction l with
  | nil =>
    intro _ a ha
    exact absurd ha (List.not_mem_nil a)
  | cons x xs ih =>
    intro hnd a ha
    have hnd' : (g x ++ catMap g xs).Nodup := hnd
    obtain ⟨n1, n2, _⟩ := List.nodup_append.mp hnd'
    rcases List.mem_cons.mp ha with rfl | ha'
    · exact n1
    · exact ih n2 a ha'

theorem catMap_nodup_unique {g : α → List β} :
    ∀ {l : List α}, (catMap g l).Nodup →
      ∀ a ∈ l, ∀ a' ∈ l, ∀ b, b ∈ g a → b ∈ g a' → a = a' := by
  intro l
  induction l with
  | nil =>
    intro _ a ha
    exact absurd ha (List.not_mem_nil a)
  | cons x xs ih =>
    intro hnd a ha a' ha' b hb hb'
    have hnd' : (g x ++ catMap g xs).Nodup := hnd
    obtain ⟨n1, n2, disj⟩ := List.nodup_append.mp hnd'
    rcases List.mem_cons.mp ha with rfl | hmem
    · rcases List.mem_cons.mp ha' with rfl | hmem'
      · rfl
      · exact (disj hb (mem_catMap.mpr ⟨a', hmem', hb'⟩)).elim
    · rcases List.mem_cons.mp ha' with rfl | hmem'
      · exact (disj hb' (mem_catMap.mpr ⟨a, hmem, hb⟩)).elim
      · exact ih n2 a hmem a' hmem' b hb hb'

/-- First run over one topic's feed: with pairwise-distinct uids that are
all fresh with respect to the session state, no entry is a duplicate, the
kept entries' uids are appended to the post table in order, the created
counter advances by the number of kept entries, and the duplicates counter
is untouched. -/
theorem run1_entries (t : Topic) :
    ∀ (es : List Entry) (db : DB) (st : Stats),
      (feedUids es).Nodup →
      (∀ e ∈ es, e.uid ∉ postUids db) →
      (es.foldl (processEntry t) (db, st)).1.topics = db.topics ∧
      postUids (es.foldl (processEntry t) (db, st)).1 = postUids db ++ keptUids t es ∧
      (es.foldl (processEntry t) (db, st)).2.posts_created =
        st.posts_created + cntP (fun e => _should_keep_entry e t.keywords) es ∧
      (es.foldl (processEntry t) (db, st)).2.duplicates = st.duplicates ∧
      (es.foldl (processEntry t) (db, st)).2.topics_checked = st.topics_checked := by
  intro es
  induction es with
  | nil =>
    intro db st _ _
    exact ⟨rfl, by simp [keptUids, feedUids], by simp [cntP], rfl, rfl⟩
  | cons e rest ih =>
    intro db st hnd hfresh
    have hfr : e.uid ∉ postUids db := hfresh e (List.mem_cons_self e rest)
    have hne : _uid_exists db e.uid = false := by
      cases hx : _uid_exists db e.uid
      · rfl
      · exact absurd ((uid_exists_iff db e.uid).mp hx) hfr
    have hnd2 : e.uid ∉ feedUids rest ∧ (feedUids rest).Nodup := by
      rw [show feedUids (e :: rest) = e.uid :: feedUids rest from rfl] at hnd
      exact List.nodup_cons.mp hnd
    by_cases hkeep : _should_keep_entry e t.keywords
    · rw [List.foldl_cons, step_keep t db st e hne hkeep]
      set db2 : DB := { db with
          posts := db.posts ++ [mkPost t db e],
          push_logs := db.push_logs ++
            [{ id := db.next_log_id, post_id := db.next_post_id, status := "pending" }],
          next_post_id := db.next_post_id + 1,
          next_log_id := db.next_log_id + 1 } with hdb2
      have hp2 : postUids db2 = postUids db ++ [e.uid] := by
        simp [hdb2, postUids, mkPost]
      have hfresh2 : ∀ e2 ∈ rest, e2.uid ∉ postUids db2 := by
        intro e2 he2
        rw [hp2]
        simp only [List.mem_append, List.mem_singleton]
        rintro (hmem | heq)
        · exact hfresh e2 (List.mem_cons_of_mem e he2) hmem
        · exact hnd2.1 (heq ▸ List.mem_map_of_mem (fun x => x.uid) he2)
      obtain ⟨h1, h2, h3, h4, h5⟩ :=
        ih db2 { st with posts_created := st.posts_created + 1 } hnd2.2 hfresh2
      refine ⟨?_, ?_, ?_, ?_, ?_⟩
      · exact h1
      · rw [h2, hp2]
        simp [keptUids, feedUids, List.filter_cons, hkeep, List.append_assoc]
      · rw [h3]
        simp [cntP, hkeep]
        omega
      · exact h4
      · exact h5
    · have hkeepf : _should_keep_entry e t.keywords = false := by
        cases hx : _should_keep_entry e t.keywords
        · rfl
        · exact absurd hx hkeep
      rw [List.foldl_cons, step_skip t db st e hne hkeepf]
      obtain ⟨h1, h2, h3, h4, h5⟩ :=
        ih db st hnd2.2 (fun e2 he2 => hfresh e2 (List.mem_cons_of_mem e he2))
      refine ⟨h1, ?_, ?_, h4, h5⟩
      · rw [h2]
        simp [keptUids, feedUids, List.filter_cons, hkeepf]
      · rw [h3]
        simp [cntP, hkeepf]

/-- First run over a list of topics with globally distinct, fresh uids:
the run succeeds, topics are untouched, all kept uids get persisted, and
the counters total up with no duplicates. -/
theorem run1_topics (feed : Topic → List Entry) :
    ∀ (tps : List Topic) (db : DB) (st : Stats),
      (allFeedUids feed tps).Nodup →
      (∀ u ∈ allFeedUids feed tps, u ∉ postUids db) →
      ∃ db1 st1,
        runTopics (fun t => Except.ok (feed t)) tps (db, st) = Except.ok (db1, st1) ∧
        db1.topics = db.topics ∧
        postUids db1 = postUids db ++ allKeptUids feed tps ∧
        st1.posts_created = st.posts_created + (allKeptUids feed tps).length ∧
        st1.duplicates = st.duplicates ∧
        st1.topics_checked = st.topics_checked := by
  intro tps
  induction tps with
  | nil =>
    intro db st _ _
    exact ⟨db, st, rfl, rfl, by simp [allKeptUids, catMap],
      by simp [allKeptUids, catMap], rfl, rfl⟩
  | cons t ts ih =>
    intro db st hnd hfresh
    have hnd' : (feedUids (feed t) ++ allFeedUids feed ts).Nodup := hnd
    obtain ⟨nd1, nd2, disj⟩ := List.nodup_append.mp hnd'
    have hf1 : ∀ e ∈ feed t, e.uid ∉ postUids db := fun e he =>
      hfresh e.uid (List.mem_append_left _ (List.mem_map_of_mem _ he))
    obtain ⟨g1, g2, g3, g4, g5⟩ := run1_entries t (feed t) db st nd1 hf1
    rcases hsplit : (feed t).foldl (processEntry t) (db, st) with ⟨dbm, stm⟩
    rw [hsplit] at g1 g2 g3 g4 g5
    have hfresh2 : ∀ u ∈ allFeedUids feed ts, u ∉ postUids dbm := by
      intro u hu
      rw [g2]
      simp only [List.mem_append]
      rintro (hmem | hkept)
      · exact hfresh u (List.mem_append_right _ hu) hmem
      · exact disj (keptUids_sub hkept) hu
    obtain ⟨db1, st1, hrun, k1, k2, k3, k4, k5⟩ := ih dbm stm nd2 hfresh2
    refine ⟨db1, st1, ?_, ?_, ?_, ?_, ?_, ?_⟩
    · rw [show runTopics (fun t => Except.ok (feed t)) (t :: ts) (db, st)
            = runTopics (fun t => Except.ok (feed t)) ts
                ((feed t).foldl (processEntry t) (db, st)) from rfl, hsplit, hrun]
    · rw [k1, g1]
    · rw [k2, g2]
      show _ = postUids db ++ (keptUids t (feed t) ++ allKeptUids feed ts)
      rw [List.append_assoc]
    · rw [k3, g3]
      have hlen : (allKeptUids feed (t :: ts)).length
          = (keptUids t (feed t)).length + (allKeptUids feed ts).length := by
        show (keptUids t (feed t) ++ allKeptUids feed ts).length = _
        rw [List.length_append]
      rw [hlen, keptUids_length]
      omega
    · rw [k4, g4]
    · rw [k5, g5]

/-- Second run over one topic's feed when every non-duplicate entry fails
the filter: the session state never changes and the duplicates counter
advances by the number of entries whose uid already exists. -/
theorem run2_entries (t : Topic) :
    ∀ (es : List Entry) (db : DB) (st : Stats),
      (∀ e ∈ es, _uid_exists db e.uid = false → _should_keep_entry e t.keywords = false) →
      es.foldl (processEntry t) (db, st) =
        (db, { st with duplicates :=
                (st.duplicates + cntP (fun e => _uid_exists db e.uid) es) }) := by
  intro es
  induction es with
  | nil =>
    intro db st _
    simp [cntP]
  | cons e rest ih =>
    intro db st h
    cases hdup : _uid_exists db e.uid
    · have hkeep := h e (List.mem_cons_self e rest) hdup
      rw [List.foldl_cons, step_skip t db st e hdup hkeep,
        ih db st (fun x hx => h x (List.mem_cons_of_mem e hx))]
      simp [cntP, hdup]
    · rw [List.foldl_cons, step_dup t db st e hdup,
        ih db { st with duplicates := st.duplicates + 1 }
          (fun x hx => h x (List.mem_cons_of_mem e hx))]
      simp [cntP, hdup, Nat.add_assoc]

/-- Second run over a list of topics under the same hypothesis: the state
is untouched and the duplicates counter counts the already-persisted
uids. -/
theorem run2_topics (feed : Topic → List Entry) :
    ∀ (tps : List Topic) (db : DB) (st : Stats),
      (∀ t ∈ tps, ∀ e ∈ feed t,
        _uid_exists db e.uid = false → _should_keep_entry e t.keywords = false) →
      runTopics (fun t => Except.ok (feed t)) tps (db, st) =
        Except.ok (db, { st with duplicates :=
          (st.duplicates + cntP (fun e => _uid_exists db e.uid) (allEntries feed tps)) }) := by
  intro tps
  induction tps with
  | nil =>
    intro db st _
    simp [runTopics, allEntries, catMap, cntP]
  | cons t ts ih =>
    intro db st h
    rw [show runTopics (fun t => Except.ok (feed t)) (t :: ts) (db, st)
          = runTopics (fun t => Except.ok (feed t)) ts
              ((feed t).foldl (processEntry t) (db, st)) from rfl,
      run2_entries t (feed t) db st (h t (List.mem_cons_self t ts)),
      ih db { st with duplicates :=
          st.duplicates + cntP (fun e => _uid_exists db e.uid) (feed t) }
        (fun t2 ht2 => h t2 (List.mem_cons_of_mem t ht2))]
    rw [show allEntries feed (t :: ts) = feed t ++ allEntries feed ts from rfl,
      cntP_append]
    simp [Nat.add_assoc]

/-- The duplicates counted by the second run are exactly the kept uids of
the first run, whenever uid-existence after run one coincides with the
keyword filter. -/
theorem cnt_allEntries_eq_kept (feed : Topic → List Entry) (db1 : DB) :
    ∀ (tps : List Topic),
      (∀ t ∈ tps, ∀ e ∈ feed t,
        _uid_exists db1 e.uid = _should_keep_entry e t.keywords) →
      cntP (fun e => _uid_exists db1 e.uid) (allEntries feed tps) =
        (allKeptUids feed tps).length := by
  intro tps
  induction tps with
  | nil => intro _; rfl
  | cons t ts ih =>
    intro h
    rw [show allEntries feed (t :: ts) = feed t ++ allEntries feed ts from rfl,
      cntP_append, cntP_congr (h t (List.mem_cons_self t ts)), ← keptUids_length,
      ih (fun t2 ht2 => h t2 (List.mem_cons_of_mem t ht2))]
    show _ = (keptUids t (feed t) ++ allKeptUids feed ts).length
    rw [List.length_append]

/-! ## Claim C1: re-running the pipeline on an unchanged feed -/

/-- **C1, counterexample.** Over `dbX` (which already holds a post with
uid `"y"`) and the unchanged feed `[x, x, y]`, the first run persists one
post (`posts_created = 1`, `duplicates = 2`) and the second run counts
three duplicates — not one, as the claim's "duplicates equals the number
of entries ingested by the first run" would require. -/
theorem C1_counterexample :
    (fetch_all_topics fetchX dbX).2 =
      Except.ok { topics_checked := 1, posts_created := 1, duplicates := 2 } ∧
    (fetch_all_topics fetchX (fetch_all_topics fetchX dbX).1).2 =
      Except.ok { topics_checked := 1, posts_created := 0, duplicates := 3 } ∧
    dupCountOf (fetch_all_topics fetchX (fetch_all_topics fetchX dbX).1).2 ≠
      createdCountOf (fetch_all_topics fetchX dbX).2 :=
  ⟨rfl, rfl, by decide⟩

/-- **C1, amended.** If the uids delivered by the active topics' feeds are
pairwise distinct and none of them is persisted yet, then re-running the
pipeline with the unchanged feed creates zero posts on the second run and
counts exactly the first run's created posts as duplicates (so entries the
first run filtered out are counted in neither counter of the second
run). -/
theorem C1_amended (feed : Topic → List Entry) (db : DB)
    (hnodup : (allFeedUids feed (_get_active_topics db)).Nodup)
    (hfresh : ∀ u ∈ allFeedUids feed (_get_active_topics db), u ∉ postUids db) :
    createdCountOf (fetch_all_topics (fun t => Except.ok (feed t))
        ((fetch_all_topics (fun t => Except.ok (feed t)) db).1)).2 = 0 ∧
    dupCountOf (fetch_all_topics (fun t => Except.ok (feed t))
        ((fetch_all_topics (fun t => Except.ok (feed t)) db).1)).2 =
      createdCountOf (fetch_all_topics (fun t => Except.ok (feed t)) db).2 := by
  obtain ⟨db1, st1, hrun, htop, hpost, hcre, hdup, hchk⟩ :=
    run1_topics feed (_get_active_topics db) db
      { topics_checked := (_get_active_topics db).length, posts_created := 0,
        duplicates := 0 } hnodup hfresh
  have hr1 : fetch_all_topics (fun t => Except.ok (feed t)) db = (db1, Except.ok st1) := by
    simp only [fetch_all_topics]
    rw [hrun]
  have hact : _get_active_topics db1 = _get_active_topics db := by
    simp [_get_active_topics, htop]
  have hiff : ∀ t ∈ _get_active_topics db, ∀ e ∈ feed t,
      _uid_exists db1 e.uid = _should_keep_entry e t.keywords := by
    intro t ht e he
    have hmemAll : e.uid ∈ allFeedUids feed (_get_active_topics db) :=
      mem_catMap.mpr ⟨t, ht, List.mem_map_of_mem _ he⟩
    have hnotdb : e.uid ∉ postUids db := hfresh e.uid hmemAll
    cases hk : _should_keep_entry e t.keywords
    · cases hx : _uid_exists db1 e.uid
      · rfl
      · exfalso
        have hmem1 := (uid_exists_iff db1 e.uid).mp hx
        rw [hpost] at hmem1
        rcases List.mem_append.mp hmem1 with hmem2 | hmem2
        · exact hnotdb hmem2
        · obtain ⟨t2, ht2, hkept⟩ := mem_catMap.mp hmem2
          have ht2t : t2 = t := catMap_nodup_unique hnodup t2 ht2 t ht e.uid
            (keptUids_sub hkept) (List.mem_map_of_mem _ he)
          subst ht2t
          simp only [keptUids, feedUids] at hkept
          obtain ⟨e2, he2, he2uid⟩ := List.mem_map.mp hkept
          have he2' := List.mem_filter.mp he2
          have hnodupT : ((feed t2).map (fun e => e.uid)).Nodup := by
            have hpart := catMap_nodup_part hnodup t2 ht2
            simpa [feedUids] using hpart
          have hee : e2 = e := List.inj_on_of_nodup_map hnodupT he2'.1 he he2uid
          rw [hee] at he2'
          rw [he2'.2] at hk
          simp at hk
    · apply (uid_exists_iff db1 e.uid).mpr
      rw [hpost]
      apply List.mem_append_right
      exact mem_catMap.mpr ⟨t, ht,
        List.mem_map_of_mem _ (List.mem_filter.mpr ⟨he, hk⟩)⟩
  have hrun2 := run2_topics feed (_get_active_topics db) db1
    { topics_checked := (_get_active_topics db).length, posts_created := 0,
      duplicates := 0 }
    (fun t ht e he hx => by
      have hq := hiff t ht e he
      rw [hx] at hq
      exact hq.symm)
  have hr2 : fetch_all_topics (fun t => Except.ok (feed t)) db1 =
      (db1, Except.ok
        { topics_checked := (_get_active_topics db).length
          posts_created := 0
          duplicates := (0 + cntP (fun e => _uid_exists db1 e.uid)
            (allEntries feed (_get_active_topics db))) }) := by
    simp only [fetch_all_topics, hact]
    rw [hrun2]
  constructor
  · rw [hr1]
    show createdCountOf (fetch_all_topics (fun t => Except.ok (feed t)) db1).2 = 0
    rw [hr2]
    rfl
  · rw [hr1]
    show dupCountOf (fetch_all_topics (fun t => Except.ok (feed t)) db1).2
        = createdCountOf (Except.ok st1)
    rw [hr2]
    show 0 + cntP (fun e => _uid_exists db1 e.uid)
        (allEntries feed (_get_active_topics db)) = st1.posts_created
    rw [cnt_allEntries_eq_kept feed db1 (_get_active_topics db) hiff, hcre]

/-- Witness for the amended C1: over `dbW` with a feed of two fresh,
distinct uids — one matching the keyword, one not — the second run creates
nothing and counts exactly the one first-run post as a duplicate. -/
theorem C1_amended_witness :
    (allFeedUids feedW (_get_active_topics dbW)).Nodup ∧
    (∀ u ∈ allFeedUids feedW (_get_active_topics dbW), u ∉ postUids dbW) ∧
    createdCountOf (fetch_all_topics (fun t => Except.ok (feedW t))
        ((fetch_all_topics (fun t => Except.ok (feedW t)) dbW).1)).2 = 0 ∧
    dupCountOf (fetch_all_topics (fun t => Except.ok (feedW t))
        ((fetch_all_topics (fun t => Except.ok (feedW t)) dbW).1)).2 =
      createdCountOf (fetch_all_topics (fun t => Except.ok (feedW t)) dbW).2 :=
  ⟨by decide, by decide,
   (C1_amended feedW dbW (by decide) (by decide)).1,
   (C1_amended feedW dbW (by decide) (by decide)).2⟩

end ForumCrawler
